import Mathlib

/-!
# Overflow — house-balance ledger, settlement and game slice: verification

A shallow embedding of the Overflow repository (BTC price-prediction game on
Sui).  The parts of the repository present in source form are translated
directly:

* `src/lib/store/gameSlice.ts` — the Zustand game slice (`GameState`,
  `setSelectedAsset`, `placeBetFromHouseBalance`, `updatePrice`,
  `addActiveBet`, `resolveBet`, …);
* the Move treasury contract (`overflow::treasury`) — `withdraw`;
* amounts are modelled as `ℚ` (the ledger stores NUMERIC(20,8) fixed-point
  values; the Move contract uses u64, modelled as `ℕ`), timestamps as `ℤ`.

The server-side ledger (Supabase stored procedures) and the bet-admission /
settlement engine are described by the repository's spec and README but their
source is not part of the repository snapshot; those operations are modelled
from the spec, and each such definition is marked `Modelled from the spec:`.
-/

namespace Overflow

/-! ## Ledger data model (spec §3, §4.1) -/

/-- Audit-log operation types (README `balance_audit_log.operation_type`). -/
inductive OpType
  | deposit
  | withdrawal
  | bet_placed
  | bet_won
  | bet_lost
deriving DecidableEq, Repr

/-- One immutable audit-log row (README `balance_audit_log`). -/
structure AuditEntry where
  address : String
  op : OpType
  amount : ℚ
  balanceBefore : ℚ
  balanceAfter : ℚ
  txHash : Option String
  betId : Option String
deriving DecidableEq, Repr

/-- The off-chain ledger: per-address balances (`user_balances`, missing
addresses read as zero balance, per spec §7 `AccountNotFound` is treated as
zero) plus the append-only audit log. -/
structure Ledger where
  balances : String → ℚ
  audit : List AuditEntry

/-- The empty ledger: no accounts, empty audit log. -/
def emptyLedger : Ledger := ⟨fun _ => 0, []⟩

/-- Error taxonomy of the ledger and bet admission (spec §7). -/
inductive LedgerError
  | InsufficientFunds
  | InvalidAmount
  | InvalidTarget
  | DuplicateTransaction
deriving DecidableEq, Repr

/-- Result of a ledger operation: the (possibly unchanged) ledger and either
the new balance or an error. -/
structure LedgerResult where
  ledger : Ledger
  result : Except LedgerError ℚ

/-- Apply a balance change plus its paired audit entry as one atomic unit. -/
def applyChange (l : Ledger) (addr : String) (newBal : ℚ) (e : AuditEntry) : Ledger :=
  { balances := fun a => if a = addr then newBal else l.balances a,
    audit := l.audit ++ [e] }

/-- Does the audit log already contain an entry with this transaction hash and
operation type?  (The idempotence key check of spec §4.1.) -/
def hasTx (l : Ledger) (op : OpType) (tx : String) : Bool :=
  l.audit.any (fun e => decide (e.txHash = some tx ∧ e.op = op))

/-- Modelled from the spec: stored procedure `deduct_balance_for_bet` /
`debitForBet(address, amount)` of §4.1 (source not in the snapshot; only the
README and spec describe it).  Fails with `InvalidAmount` if `amount <= 0`,
with `InsufficientFunds` if `amount > balance`; otherwise debits and audits
`bet_placed`. -/
def debitForBet (l : Ledger) (addr : String) (amount : ℚ) : LedgerResult :=
  if amount ≤ 0 then ⟨l, .error .InvalidAmount⟩
  else if l.balances addr < amount then ⟨l, .error .InsufficientFunds⟩
  else
    let bal := l.balances addr
    ⟨applyChange l addr (bal - amount)
      ⟨addr, .bet_placed, amount, bal, bal - amount, none, none⟩,
     .ok (bal - amount)⟩

/-- Modelled from the spec: stored procedure `credit_balance_for_payout` /
`creditForPayout(address, amount, betId)` of §4.1 (source not in the
snapshot).  Fails with `InvalidAmount` if `amount <= 0`; otherwise credits and
audits `bet_won`. -/
def creditForPayout (l : Ledger) (addr : String) (amount : ℚ) (betId : String) :
    LedgerResult :=
  if amount ≤ 0 then ⟨l, .error .InvalidAmount⟩
  else
    let bal := l.balances addr
    ⟨applyChange l addr (bal + amount)
      ⟨addr, .bet_won, amount, bal, bal + amount, none, some betId⟩,
     .ok (bal + amount)⟩

/-- Modelled from the spec: stored procedure `update_balance_for_deposit` /
`creditForDeposit(address, amount, txHash)` of §4.1 (source not in the
snapshot).  Idempotent on `txHash`: fails with `DuplicateTransaction` (a
no-op) if a `deposit` audit entry with that hash exists; otherwise credits and
audits `deposit`. -/
def creditForDeposit (l : Ledger) (addr : String) (amount : ℚ) (tx : String) :
    LedgerResult :=
  if hasTx l .deposit tx then ⟨l, .error .DuplicateTransaction⟩
  else
    let bal := l.balances addr
    ⟨applyChange l addr (bal + amount)
      ⟨addr, .deposit, amount, bal, bal + amount, some tx, none⟩,
     .ok (bal + amount)⟩

/-- Modelled from the spec: stored procedure `update_balance_for_withdrawal` /
`debitForWithdrawal(address, amount, txHash)` of §4.1 (source not in the
snapshot).  Idempotent on `txHash`; fails with `InsufficientFunds` if
`amount > balance`; otherwise debits and audits `withdrawal`. -/
def debitForWithdrawal (l : Ledger) (addr : String) (amount : ℚ) (tx : String) :
    LedgerResult :=
  if hasTx l .withdrawal tx then ⟨l, .error .DuplicateTransaction⟩
  else if l.balances addr < amount then ⟨l, .error .InsufficientFunds⟩
  else
    let bal := l.balances addr
    ⟨applyChange l addr (bal - amount)
      ⟨addr, .withdrawal, amount, bal, bal - amount, some tx, none⟩,
     .ok (bal - amount)⟩

/-- Modelled from the spec: command-surface `recordDeposit` (spec §6), which
wraps `creditForDeposit` and swallows the benign `DuplicateTransaction` into a
successful no-op response (spec §7 propagation policy). -/
def recordDeposit (l : Ledger) (addr : String) (amount : ℚ) (tx : String) :
    LedgerResult :=
  let r := creditForDeposit l addr amount tx
  match r.result with
  | .error .DuplicateTransaction => ⟨r.ledger, .ok (r.ledger.balances addr)⟩
  | x => ⟨r.ledger, x⟩

/-! ## Balance-affecting operation sequences (for the balance invariant) -/

/-- One balance-affecting ledger operation (spec §4.1's four atomic
operations). -/
inductive LedgerOp
  | deposit (addr : String) (amount : ℚ) (tx : String)
  | withdrawal (addr : String) (amount : ℚ) (tx : String)
  | betDebit (addr : String) (amount : ℚ)
  | payoutCredit (addr : String) (amount : ℚ) (betId : String)
deriving Repr

/-- The amount carried by a ledger operation. -/
def LedgerOp.opAmount : LedgerOp → ℚ
  | .deposit _ a _ => a
  | .withdrawal _ a _ => a
  | .betDebit _ a => a
  | .payoutCredit _ a _ => a

/-- Apply one operation to the ledger; a failed operation leaves the ledger
unchanged (spec §7: commands fully succeed or fully fail). -/
def applyOp (l : Ledger) : LedgerOp → Ledger
  | .deposit addr a tx => (creditForDeposit l addr a tx).ledger
  | .withdrawal addr a tx => (debitForWithdrawal l addr a tx).ledger
  | .betDebit addr a => (debitForBet l addr a).ledger
  | .payoutCredit addr a betId => (creditForPayout l addr a betId).ledger

/-- Run a sequence of balance-affecting operations. -/
def runOps (l : Ledger) (ops : List LedgerOp) : Ledger :=
  ops.foldl applyOp l

/-! ## Move treasury contract (`overflow::treasury`, in the snapshot) -/

/-- Move abort codes of `overflow::treasury`. -/
inductive TreasuryError
  | EZeroAmount
  | EInsufficientBalance
deriving DecidableEq, Repr

/-- `overflow::treasury::withdraw`: asserts `amount > 0` (abort `EZeroAmount`)
and `balance::value(&treasury.balance) >= amount` (abort
`EInsufficientBalance`), then splits `amount` from the treasury balance.
The u64 balance is modelled as `ℕ`; the checked subtraction never wraps. -/
def treasuryWithdraw (bal amount : ℕ) : Except TreasuryError ℕ :=
  if amount = 0 then .error .EZeroAmount
  else if bal < amount then .error .EInsufficientBalance
  else .ok (bal - amount)

/-! ## Bet model and settlement (spec §3 Bet, §4.3, §4.4) -/

/-- Bet direction. -/
inductive Direction
  | UP
  | DOWN
deriving DecidableEq, Repr

/-- Bet lifecycle status (spec §3). -/
inductive BetStatus
  | Pending
  | Won
  | Lost
deriving DecidableEq, Repr

/-- Modelled from the spec: the §3 Bet record of the bet-admission and
settlement engine (the server-side bet table / settlement code is not in the
snapshot). -/
structure SpecBet where
  id : String
  address : String
  amount : ℚ
  direction : Direction
  multiplier : ℚ
  priceChangeTarget : ℚ
  placedAt : ℤ
  referencePrice : ℚ
  deadline : ℤ
  status : BetStatus
deriving DecidableEq, Repr

/-- Round duration, fixed at 30 time units (spec §3). -/
def roundDuration : ℤ := 30

/-- Modelled from the spec: the §4.4 outcome rule.  With
`delta = endPrice - referencePrice`: direction UP is Won iff
`delta >= priceChangeTarget`, direction DOWN is Won iff
`delta <= priceChangeTarget`; otherwise Lost. -/
def settleOutcome (b : SpecBet) (endPrice : ℚ) : BetStatus :=
  let delta := endPrice - b.referencePrice
  match b.direction with
  | .UP => if b.priceChangeTarget ≤ delta then .Won else .Lost
  | .DOWN => if delta ≤ b.priceChangeTarget then .Won else .Lost

/-- Modelled from the spec: `payout = amount * multiplier` if Won, else `0`
(spec §4.4). -/
def settlePayout (b : SpecBet) (endPrice : ℚ) : ℚ :=
  if settleOutcome b endPrice = .Won then b.amount * b.multiplier else 0

/-- A bet with the given stake, multiplier, direction, price-change target and
reference price (remaining fields fixed), used to state concrete settlement
facts. -/
def mkSpecBet (amount multiplier : ℚ) (d : Direction) (target refPrice : ℚ) :
    SpecBet :=
  ⟨"bet-1", "0xaddr", amount, d, multiplier, target, 0, refPrice,
   roundDuration, .Pending⟩

/-- Modelled from the spec: the §4.3 direction/target consistency check — a
price-change target is consistent with direction UP iff it is positive and
with direction DOWN iff it is negative. -/
def targetConsistent (d : Direction) (target : ℚ) : Bool :=
  match d with
  | .UP => decide (0 < target)
  | .DOWN => decide (target < 0)

/-- State owned by bet admission: the ledger plus the persisted bets. -/
structure AdmissionState where
  ledger : Ledger
  bets : List SpecBet

/-- Result of a `placeBet` admission call. -/
structure AdmissionResult where
  state : AdmissionState
  result : Except LedgerError SpecBet

/-- Modelled from the spec: `placeBet` of §4.3 (the server-side bet API is not
in the snapshot).  Rejects `InvalidAmount` if `amount <= 0`; rejects
`InvalidTarget` if `multiplier <= 1.0` or the direction/target pairing is
inconsistent; then calls `debitForBet`, propagating `InsufficientFunds`
unchanged; on success persists a Pending bet with
`deadline = now + roundDuration` in the same atomic unit.  Per the spec's
serialization contract (§4.1, §5), concurrent calls on one address execute in
some sequential order, so simultaneity is modelled by composing calls. -/
def specPlaceBet (st : AdmissionState) (id addr : String) (amount : ℚ)
    (direction : Direction) (multiplier priceChangeTarget refPrice : ℚ)
    (now : ℤ) : AdmissionResult :=
  if amount ≤ 0 then ⟨st, .error .InvalidAmount⟩
  else if multiplier ≤ 1 || !(targetConsistent direction priceChangeTarget) then
    ⟨st, .error .InvalidTarget⟩
  else
    let d := debitForBet st.ledger addr amount
    match d.result with
    | .error e => ⟨⟨d.ledger, st.bets⟩, .error e⟩
    | .ok _ =>
      let bet : SpecBet :=
        ⟨id, addr, amount, direction, multiplier, priceChangeTarget, now,
         refPrice, now + roundDuration, .Pending⟩
      ⟨⟨d.ledger, st.bets ++ [bet]⟩, .ok bet⟩

/-! ## Game slice (`src/lib/store/gameSlice.ts`) -/

/-- Assets supported by the price feed (`src/lib/utils/priceFeed.ts`). -/
inductive Asset
  | BTC
  | SUI
  | SOL
deriving DecidableEq, Repr

/-- One point of the rolling price history (`PricePoint`). -/
structure PricePoint where
  timestamp : ℤ
  price : ℚ
deriving DecidableEq, Repr

/-- A betting target cell (`TargetCell`). -/
structure TargetCell where
  id : String
  label : String
  multiplier : ℚ
  priceChange : ℚ
  direction : Direction
deriving DecidableEq, Repr

/-- An active bet of the instant-resolution system (`ActiveBet`). -/
structure ActiveBet where
  id : String
  cellId : String
  amount : ℚ
  multiplier : ℚ
  direction : Direction
  timestamp : ℤ
deriving DecidableEq, Repr

/-- The game slice state (`GameState`).  `activeRound` is kept for backward
compatibility and holds at most an opaque round id here. -/
structure GameState where
  selectedAsset : Asset
  currentPrice : ℚ
  priceHistory : List PricePoint
  activeRound : Option String
  activeBets : List ActiveBet
  targetCells : List TargetCell
  isPlacingBet : Bool
  isSettling : Bool
  error : Option String
deriving DecidableEq, Repr

/-- `DEFAULT_TARGET_CELLS` (gameSlice.ts lines 52-61). -/
def DEFAULT_TARGET_CELLS : List TargetCell :=
  [⟨"1", "+$5 in 30s", 1.5, 5, .UP⟩,
   ⟨"2", "+$10 in 30s", 2.0, 10, .UP⟩,
   ⟨"3", "+$20 in 30s", 3.0, 20, .UP⟩,
   ⟨"4", "+$50 in 30s", 5.0, 50, .UP⟩,
   ⟨"5", "+$100 in 30s", 10.0, 100, .UP⟩,
   ⟨"6", "-$5 in 30s", 1.5, -5, .DOWN⟩,
   ⟨"7", "-$10 in 30s", 2.0, -10, .DOWN⟩,
   ⟨"8", "-$20 in 30s", 3.0, -20, .DOWN⟩]

/-- The initial game slice state (gameSlice.ts lines 68-77). -/
def initialGameState : GameState :=
  ⟨.BTC, 0, [], none, [], DEFAULT_TARGET_CELLS, false, false, none⟩

/-- JS `String.prototype.startsWith`. -/
def strStartsWith (s pre : String) : Bool :=
  pre.data.isPrefixOf s.data

/-- `setSelectedAsset` (gameSlice.ts lines 82-95): only resets when actually
changing asset; on a change it clears the price history, current price, active
bets and active round. -/
def setSelectedAsset (asset : Asset) (s : GameState) : GameState :=
  if s.selectedAsset = asset then s
  else
    { s with
      selectedAsset := asset,
      priceHistory := [],
      currentPrice := 0,
      activeBets := [],
      activeRound := none }

/-- `addActiveBet` (gameSlice.ts lines 320-323): appends to `activeBets`. -/
def addActiveBet (bet : ActiveBet) (s : GameState) : GameState :=
  { s with activeBets := s.activeBets ++ [bet] }

/-- `resolveBet` (gameSlice.ts lines 331-338): removes the resolved bet from
`activeBets` (the `won`/`payout` arguments are only logged). -/
def resolveBet (betId : String) (won : Bool) (payout : ℚ) (s : GameState) :
    GameState :=
  { s with activeBets := s.activeBets.filter (fun b => decide (b.id ≠ betId)) }

/-- `settleRound` (gameSlice.ts lines 260-263): deprecated no-op that only
resets `isSettling`. -/
def settleRound (betId : String) (s : GameState) : GameState :=
  { s with isSettling := false }

/-- `setActiveRound` (gameSlice.ts lines 302-304). -/
def setActiveRound (round : Option String) (s : GameState) : GameState :=
  { s with activeRound := round }

/-- `loadTargetCells` (gameSlice.ts lines 311-314). -/
def loadTargetCells (s : GameState) : GameState :=
  { s with targetCells := DEFAULT_TARGET_CELLS }

/-- `clearError` (gameSlice.ts lines 343-345). -/
def clearError (s : GameState) : GameState :=
  { s with error := none }

/-- `MAX_PRICE_HISTORY` (gameSlice.ts line 49). -/
def MAX_PRICE_HISTORY : ℕ := 300

/-- `updatePrice` (gameSlice.ts lines 270-296): appends `{timestamp: now,
price}`, drops points older than five minutes, keeps the last
`MAX_PRICE_HISTORY` points (JS `slice(-300)`), and sets `currentPrice`. -/
def updatePrice (now : ℤ) (price : ℚ) (s : GameState) : GameState :=
  let newPoint : PricePoint := ⟨now, price⟩
  let updatedHistory := s.priceHistory ++ [newPoint]
  let fiveMinutesAgo := now - 5 * 60 * 1000
  let filteredHistory :=
    updatedHistory.filter (fun point => decide (fiveMinutesAgo ≤ point.timestamp))
  let trimmedHistory :=
    filteredHistory.drop (filteredHistory.length - MAX_PRICE_HISTORY)
  { s with currentPrice := price, priceHistory := trimmedHistory }

/-- Run a sequence of `updatePrice` calls, each given as `(now, price)`. -/
def runUpdates (s : GameState) (calls : List (ℤ × ℚ)) : GameState :=
  calls.foldl (fun st c => updatePrice c.1 c.2 st) s

/-! ## `placeBetFromHouseBalance` (gameSlice.ts lines 116-252) -/

/-- Numeric value of a digit string. -/
def digitsVal (ds : List Char) : ℕ :=
  ds.foldl (fun n c => n * 10 + (c.toNat - 48)) 0

/-- JS `String.prototype.split` with a one-character separator, over the
character list of the string. -/
def splitOnChar (sep : Char) : List Char → List (List Char)
  | [] => [[]]
  | x :: rest =>
    match splitOnChar sep rest with
    | [] => [[]]
    | cur :: others =>
      if x = sep then [] :: cur :: others else (x :: cur) :: others

/-- JS `parseFloat` restricted to the strings reachable in the game slice
(segments of a target id after splitting on `-`, hence non-negative decimal
literals): parses the longest `digits [. digits]` prefix, `none` when no digit
is found (JS `NaN`). -/
def parseDecimal (cs : List Char) : Option ℚ :=
  let intPart := cs.takeWhile Char.isDigit
  let rest := cs.drop intPart.length
  match rest with
  | '.' :: rest2 =>
    let fracPart := rest2.takeWhile Char.isDigit
    if intPart.isEmpty && fracPart.isEmpty then none
    else some ((digitsVal intPart : ℚ) + (digitsVal fracPart : ℚ) / 10 ^ fracPart.length)
  | _ => if intPart.isEmpty then none else some (digitsVal intPart : ℚ)

/-- gameSlice.ts line 127: prepend `0x` when the user address lacks it. -/
def formatAddress (userAddress : String) : String :=
  if strStartsWith userAddress "0x" then userAddress else "0x" ++ userAddress

/-- Render a direction the way the slice's template literal does. -/
def Direction.render : Direction → String
  | .UP => "UP"
  | .DOWN => "DOWN"

/-- gameSlice.ts lines 134-146: build the dynamic grid target from a target id
of the form `UP-…` / `DOWN-…`.  The multiplier is
`parseFloat(parts[1]) || 1.5`, so an unparseable or zero multiplier falls back
to `1.5`; the price change is `+10` for UP and `-10` for DOWN. -/
def dynamicTarget (targetId : String) : TargetCell :=
  let parts := splitOnChar '-' targetId.data
  let direction : Direction :=
    if strStartsWith targetId "UP-" then .UP else .DOWN
  let multiplier : ℚ :=
    match parseDecimal (parts.getD 1 []) with
    | none => 1.5
    | some q => if q = 0 then 1.5 else q
  { id := targetId,
    label := direction.render ++ " x" ++ toString multiplier,
    multiplier := multiplier,
    priceChange := if direction = .UP then 10 else -10,
    direction := direction }

/-- gameSlice.ts lines 133-156: a dynamic target id (`UP-…` / `DOWN-…`) yields
the dynamic target; otherwise the predefined cell with that id is looked up,
`none` when absent. -/
def resolveTarget (cells : List TargetCell) (targetId : String) :
    Option TargetCell :=
  if strStartsWith targetId "UP-" || strStartsWith targetId "DOWN-" then
    some (dynamicTarget targetId)
  else cells.find? (fun cell => decide (cell.id = targetId))

/-- Successful return value of `placeBetFromHouseBalance`
(`{betId, remainingBalance, bet}`). -/
structure PlaceBetOk where
  betId : String
  remainingBalance : ℚ
  bet : ActiveBet
deriving DecidableEq, Repr

/-- Successful response of the `/api/balance/bet` endpoint as consumed by the
slice. -/
structure ApiOk where
  betId : String
  remainingBalance : ℚ
deriving DecidableEq, Repr

/-- Outcome of one `placeBetFromHouseBalance` call: the returned (or thrown)
value, the resulting slice state, and whether the `/api/balance/bet` fetch was
performed. -/
structure PlaceBetOutcome where
  result : Except String PlaceBetOk
  state : GameState
  apiCalled : Bool
deriving Repr

/-- `placeBetFromHouseBalance` (gameSlice.ts lines 116-252).  The parsed bet
amount is `none` for `NaN`; `now` models `Date.now()`; `api` models the
outcome of the `/api/balance/bet` fetch (error message on a failed response).
A thrown error is caught by the catch block, which sets `isPlacingBet` to
`false` and `error` to the message before rethrowing. -/
def placeBetFromHouseBalance (s : GameState) (amount : Option ℚ)
    (targetId userAddress : String) (cellId : Option String) (now : ℤ)
    (api : Except String ApiOk) : PlaceBetOutcome :=
  let throwOut : String → PlaceBetOutcome := fun msg =>
    ⟨.error msg, { s with isPlacingBet := false, error := some msg }, false⟩
  match amount with
  | none => throwOut "Invalid bet amount"
  | some betAmount =>
    if betAmount ≤ 0 then throwOut "Invalid bet amount"
    else
      let formattedAddress := formatAddress userAddress
      match resolveTarget s.targetCells targetId with
      | none => throwOut "Invalid target cell"
      | some target =>
        let direction := target.direction
        let multiplier := target.multiplier
        if strStartsWith formattedAddress "0xDEMO" then
          let fakeBetId := "demo-" ++ toString now
          let activeBet : ActiveBet :=
            ⟨fakeBetId, cellId.getD targetId, betAmount, multiplier, direction, now⟩
          ⟨.ok ⟨fakeBetId, 1000 - betAmount, activeBet⟩,
           { s with
             activeBets := s.activeBets ++ [activeBet],
             isPlacingBet := false,
             error := none },
           false⟩
        else
          match api with
          | .error e =>
            ⟨.error e, { s with isPlacingBet := false, error := some e }, true⟩
          | .ok data =>
            let activeBet : ActiveBet :=
              ⟨data.betId, cellId.getD targetId, betAmount, multiplier, direction, now⟩
            ⟨.ok ⟨data.betId, data.remainingBalance, activeBet⟩,
             { s with
               activeBets := s.activeBets ++ [activeBet],
               isPlacingBet := false,
               error := none },
             true⟩

/-! ## Theorems -/

/-- The balance stored for an address after `applyChange`. -/
theorem applyChange_balances (l : Ledger) (addr : String) (nb : ℚ)
    (e : AuditEntry) (a : String) :
    (applyChange l addr nb e).balances a = if a = addr then nb else l.balances a :=
  rfl

/-- `creditForDeposit` with a non-negative amount preserves non-negativity. -/
theorem creditForDeposit_balances_nonneg (l : Ledger) (addr : String) (amt : ℚ)
    (tx : String) (hop : 0 ≤ amt) (hl : ∀ a, 0 ≤ l.balances a) :
    ∀ a, 0 ≤ (creditForDeposit l addr amt tx).ledger.balances a := by
  intro a
  simp only [creditForDeposit, applyChange]
  split_ifs with h1
  · exact hl a
  · dsimp only
    by_cases h2 : a = addr
    · rw [if_pos h2]; have := hl addr; linarith
    · rw [if_neg h2]; exact hl a

/-- `debitForWithdrawal` preserves non-negativity. -/
theorem debitForWithdrawal_balances_nonneg (l : Ledger) (addr : String)
    (amt : ℚ) (tx : String) (hl : ∀ a, 0 ≤ l.balances a) :
    ∀ a, 0 ≤ (debitForWithdrawal l addr amt tx).ledger.balances a := by
  intro a
  simp only [debitForWithdrawal, applyChange]
  split_ifs with h1 h2
  · exact hl a
  · exact hl a
  · rw [not_lt] at h2
    dsimp only
    by_cases h3 : a = addr
    · rw [if_pos h3]; linarith
    · rw [if_neg h3]; exact hl a

/-- `debitForBet` preserves non-negativity. -/
theorem debitForBet_balances_nonneg (l : Ledger) (addr : String) (amt : ℚ)
    (hl : ∀ a, 0 ≤ l.balances a) :
    ∀ a, 0 ≤ (debitForBet l addr amt).ledger.balances a := by
  intro a
  simp only [debitForBet, applyChange]
  split_ifs with h1 h2
  · exact hl a
  · exact hl a
  · rw [not_lt] at h2
    dsimp only
    by_cases h3 : a = addr
    · rw [if_pos h3]; linarith
    · rw [if_neg h3]; exact hl a

/-- `creditForPayout` preserves non-negativity. -/
theorem creditForPayout_balances_nonneg (l : Ledger) (addr : String) (amt : ℚ)
    (betId : String) (hl : ∀ a, 0 ≤ l.balances a) :
    ∀ a, 0 ≤ (creditForPayout l addr amt betId).ledger.balances a := by
  intro a
  simp only [creditForPayout, applyChange]
  split_ifs with h1
  · exact hl a
  · rw [not_le] at h1
    dsimp only
    by_cases h2 : a = addr
    · rw [if_pos h2]; have := hl addr; linarith
    · rw [if_neg h2]; exact hl a

/-- Every single balance-affecting operation with a non-negative amount
preserves non-negativity of all balances. -/
theorem applyOp_balances_nonneg (l : Ledger) (op : LedgerOp)
    (hop : 0 ≤ op.opAmount) (hl : ∀ a, 0 ≤ l.balances a) :
    ∀ a, 0 ≤ (applyOp l op).balances a := by
  cases op with
  | deposit addr amt tx =>
    exact creditForDeposit_balances_nonneg l addr amt tx hop hl
  | withdrawal addr amt tx =>
    exact debitForWithdrawal_balances_nonneg l addr amt tx hl
  | betDebit addr amt =>
    exact debitForBet_balances_nonneg l addr amt hl
  | payoutCredit addr amt betId =>
    exact creditForPayout_balances_nonneg l addr amt betId hl

/-- Non-negativity of all balances is preserved by any sequence of
balance-affecting operations with non-negative amounts. -/
theorem runOps_balances_nonneg (ops : List LedgerOp) :
    ∀ (l : Ledger), (∀ a, 0 ≤ l.balances a) →
      (∀ op ∈ ops, 0 ≤ op.opAmount) → ∀ a, 0 ≤ (runOps l ops).balances a := by
  induction ops with
  | nil => intro l hl _ a; exact hl a
  | cons op rest ih =>
    intro l hl hops a
    simp only [runOps, List.foldl_cons]
    exact ih (applyOp l op)
      (applyOp_balances_nonneg l op (hops op (by simp)) hl)
      (fun o ho => hops o (by simp [ho])) a

/-- C1.  Every balance-affecting operation preserves the invariant that each
account's balance is non-negative: for every ledger whose balances are all
non-negative and every sequence of deposits, withdrawals, bet debits and
payout credits (with non-negative amounts, as on-chain u64 amounts are), all
balances are `≥ 0` after each prefix of the sequence; and the treasury
contract's `withdraw` aborts with `EInsufficientBalance` whenever the
requested amount exceeds the held balance, rather than driving it below
zero. -/
theorem ledger_balance_nonneg (l : Ledger) (ops : List LedgerOp)
    (hl : ∀ a, 0 ≤ l.balances a)
    (hops : ∀ op ∈ ops, 0 ≤ op.opAmount) :
    (∀ n, ∀ a, 0 ≤ (runOps l (ops.take n)).balances a) ∧
    (∀ bal amt : ℕ, bal < amt →
      treasuryWithdraw bal amt = .error .EInsufficientBalance) := by
  constructor
  · intro n a
    exact runOps_balances_nonneg (ops.take n) l hl
      (fun op hop => hops op (List.take_subset n ops hop)) a
  · intro bal amt h
    have hne : amt ≠ 0 := by omega
    simp [treasuryWithdraw, hne, h]

/-- Witness for C1: a concrete run (deposit 5, bet 3, payout 6, withdrawal 8
— the last one overdrafting and hence rejected) keeps the balance
non-negative, and a treasury withdrawal of 4 against a balance of 3 aborts. -/
theorem ledger_balance_nonneg_witness :
    0 ≤ (runOps emptyLedger
      ([.deposit "0xa" 5 "0xt1", .betDebit "0xa" 3,
        .payoutCredit "0xa" 6 "bet-1", .withdrawal "0xa" 8 "0xt2"].take 4)).balances "0xa" ∧
    treasuryWithdraw 3 4 = .error .EInsufficientBalance := by
  have h := ledger_balance_nonneg emptyLedger
    [.deposit "0xa" 5 "0xt1", .betDebit "0xa" 3,
     .payoutCredit "0xa" 6 "bet-1", .withdrawal "0xa" 8 "0xt2"]
    (fun _ => le_refl 0) (by decide)
  exact ⟨h.1 4 "0xa", h.2 3 4 (by decide)⟩

/-- C2.  Settlement is determined exactly by the outcome rule: with
`delta = endPrice - referencePrice`, a bet is Won iff (direction UP and
`delta ≥ priceChangeTarget`) or (direction DOWN and
`delta ≤ priceChangeTarget`), settlement always yields Won or Lost, the
payout is `amount * multiplier` when Won and `0` when Lost; in particular for
reference price 50000, direction UP, target +10: end price 50010 is Won with
payout `amount * multiplier` and end price 50009 is Lost with payout 0. -/
theorem settlement_outcome_rule (b : SpecBet) (endPrice : ℚ) :
    (settleOutcome b endPrice = .Won ↔
      ((b.direction = .UP ∧ b.priceChangeTarget ≤ endPrice - b.referencePrice) ∨
       (b.direction = .DOWN ∧ endPrice - b.referencePrice ≤ b.priceChangeTarget))) ∧
    (settleOutcome b endPrice = .Won ∨ settleOutcome b endPrice = .Lost) ∧
    settlePayout b endPrice =
      (if settleOutcome b endPrice = .Won then b.amount * b.multiplier else 0) ∧
    (∀ a m : ℚ,
      settleOutcome (mkSpecBet a m .UP 10 50000) 50010 = .Won ∧
      settlePayout (mkSpecBet a m .UP 10 50000) 50010 = a * m ∧
      settleOutcome (mkSpecBet a m .UP 10 50000) 50009 = .Lost ∧
      settlePayout (mkSpecBet a m .UP 10 50000) 50009 = 0) := by
  refine ⟨?_, ?_, rfl, ?_⟩
  · cases hd : b.direction <;>
      simp only [settleOutcome, hd] <;> split <;> simp_all
  · cases hd : b.direction <;>
      simp only [settleOutcome, hd] <;> split <;> simp
  · intro a m
    refine ⟨?_, ?_, ?_, ?_⟩ <;>
      simp [settleOutcome, settlePayout, mkSpecBet] <;> norm_num

/-- A fresh idempotence key has no matching audit entries at all. -/
theorem countP_eq_zero_of_hasTx_false (l : Ledger) (op : OpType) (tx : String)
    (h : hasTx l op tx = false) :
    l.audit.countP (fun e => decide (e.txHash = some tx ∧ e.op = op)) = 0 := by
  rw [List.countP_eq_zero]
  intro e he
  have := List.any_eq_false.mp h e he
  simpa using this

/-- `hasTx` over an audit log extended by one entry. -/
theorem hasTx_applyChange (l : Ledger) (addr : String) (nb : ℚ)
    (e : AuditEntry) (op : OpType) (tx : String) :
    hasTx (applyChange l addr nb e) op tx =
      (hasTx l op tx || decide (e.txHash = some tx ∧ e.op = op)) := by
  simp [hasTx, applyChange]

/-- The audit log after `applyChange`. -/
theorem applyChange_audit (l : Ledger) (addr : String) (nb : ℚ)
    (e : AuditEntry) : (applyChange l addr nb e).audit = l.audit ++ [e] :=
  rfl

/-- C3.  `recordDeposit` (`creditForDeposit`) is idempotent on the transaction
hash: for every address, amount and fresh `txHash`, calling it twice with the
same `txHash` leaves exactly one matching `deposit` audit entry and exactly
one balance change (the balance ends at `initial + amount`), and the second
call is a no-op whose response is a success, not a surfaced fatal error. -/
theorem recordDeposit_idempotent (l : Ledger) (addr : String) (amount : ℚ)
    (tx : String) (hfresh : hasTx l .deposit tx = false) :
    (recordDeposit l addr amount tx).result = .ok (l.balances addr + amount) ∧
    (recordDeposit (recordDeposit l addr amount tx).ledger addr amount tx).result
      = .ok ((recordDeposit l addr amount tx).ledger.balances addr) ∧
    (recordDeposit (recordDeposit l addr amount tx).ledger addr amount tx).ledger
      = (recordDeposit l addr amount tx).ledger ∧
    (recordDeposit l addr amount tx).ledger.balances addr
      = l.balances addr + amount ∧
    (recordDeposit (recordDeposit l addr amount tx).ledger addr amount
        tx).ledger.audit.countP
      (fun e => decide (e.txHash = some tx ∧ e.op = OpType.deposit)) = 1 := by
  refine ⟨?_, ?_, ?_, ?_, ?_⟩
  · simp [recordDeposit, creditForDeposit, hfresh]
  · simp [recordDeposit, creditForDeposit, hfresh, hasTx_applyChange]
  · simp [recordDeposit, creditForDeposit, hfresh, hasTx_applyChange]
  · simp [recordDeposit, creditForDeposit, hfresh, applyChange_balances]
  · simp [recordDeposit, creditForDeposit, hfresh, hasTx_applyChange,
      applyChange_audit, List.countP_append, List.countP_cons]
    intro e he hhash
    have hne := List.any_eq_false.mp hfresh e he
    simp [hhash] at hne
    exact hne

/-- Witness for C3: a concrete fresh deposit of 100 applied twice with hash
`0xA` on the empty ledger. -/
theorem recordDeposit_idempotent_witness :
    hasTx emptyLedger .deposit "0xA" = false ∧
    ((recordDeposit emptyLedger "0xa" 100 "0xA").result
        = .ok (emptyLedger.balances "0xa" + 100) ∧
      (recordDeposit (recordDeposit emptyLedger "0xa" 100 "0xA").ledger "0xa" 100
          "0xA").result
        = .ok ((recordDeposit emptyLedger "0xa" 100 "0xA").ledger.balances "0xa") ∧
      (recordDeposit (recordDeposit emptyLedger "0xa" 100 "0xA").ledger "0xa" 100
          "0xA").ledger
        = (recordDeposit emptyLedger "0xa" 100 "0xA").ledger ∧
      (recordDeposit emptyLedger "0xa" 100 "0xA").ledger.balances "0xa"
        = emptyLedger.balances "0xa" + 100 ∧
      (recordDeposit (recordDeposit emptyLedger "0xa" 100 "0xA").ledger "0xa" 100
          "0xA").ledger.audit.countP
        (fun e => decide (e.txHash = some "0xA" ∧ e.op = OpType.deposit)) = 1) :=
  ⟨rfl, recordDeposit_idempotent emptyLedger "0xa" 100 "0xA" rfl⟩

/-- C4.  For every address, amount and fresh `txHash`: a withdrawal whose
amount exceeds the current balance fails with `InsufficientFunds` and leaves
the ledger unchanged; a withdrawal with `amount ≤ balance` succeeds and
decreases the balance by exactly the amount. -/
theorem debitForWithdrawal_overdraft_spec (l : Ledger) (addr : String)
    (amount : ℚ) (tx : String) (hfresh : hasTx l .withdrawal tx = false) :
    (l.balances addr < amount →
      (debitForWithdrawal l addr amount tx).result = .error .InsufficientFunds ∧
      (debitForWithdrawal l addr amount tx).ledger = l) ∧
    (amount ≤ l.balances addr →
      (debitForWithdrawal l addr amount tx).result
        = .ok (l.balances addr - amount) ∧
      (debitForWithdrawal l addr amount tx).ledger.balances addr
        = l.balances addr - amount) := by
  constructor
  · intro hover
    simp [debitForWithdrawal, hfresh, hover]
  · intro hle
    have hnot : ¬(l.balances addr < amount) := not_lt.mpr hle
    simp [debitForWithdrawal, hfresh, hnot, applyChange_balances]

/-- Witness for C4: on a ledger holding 10 for `0xa` (after one deposit), a
fresh withdrawal of 12 is rejected with the ledger unchanged, and a fresh
withdrawal of 4 leaves balance 6. -/
theorem debitForWithdrawal_overdraft_spec_witness :
    hasTx (creditForDeposit emptyLedger "0xa" 10 "0xT1").ledger .withdrawal "0xT2"
        = false ∧
    ((creditForDeposit emptyLedger "0xa" 10 "0xT1").ledger.balances "0xa" < 12 →
      (debitForWithdrawal (creditForDeposit emptyLedger "0xa" 10 "0xT1").ledger
          "0xa" 12 "0xT2").result = .error .InsufficientFunds ∧
      (debitForWithdrawal (creditForDeposit emptyLedger "0xa" 10 "0xT1").ledger
          "0xa" 12 "0xT2").ledger
        = (creditForDeposit emptyLedger "0xa" 10 "0xT1").ledger) ∧
    ((12 : ℚ) ≤ (creditForDeposit emptyLedger "0xa" 10 "0xT1").ledger.balances "0xa" →
      (debitForWithdrawal (creditForDeposit emptyLedger "0xa" 10 "0xT1").ledger
          "0xa" 12 "0xT2").result
        = .ok ((creditForDeposit emptyLedger "0xa" 10 "0xT1").ledger.balances "0xa" - 12) ∧
      (debitForWithdrawal (creditForDeposit emptyLedger "0xa" 10 "0xT1").ledger
          "0xa" 12 "0xT2").ledger.balances "0xa"
        = (creditForDeposit emptyLedger "0xa" 10 "0xT1").ledger.balances "0xa" - 12) :=
  ⟨by decide,
   debitForWithdrawal_overdraft_spec
     (creditForDeposit emptyLedger "0xa" 10 "0xT1").ledger "0xa" 12 "0xT2"
     (by decide)⟩

/-- A `placeBet` admission call whose stake exceeds the current balance is
rejected with `InsufficientFunds` and leaves the ledger unchanged. -/
theorem specPlaceBet_insufficient (st : AdmissionState) (id addr : String)
    (direction : Direction) (amount m t ref : ℚ) (now : ℤ)
    (h0 : st.ledger.balances addr < amount) (hpos : 0 < amount)
    (hm : ¬(m ≤ 1)) (ht : targetConsistent direction t = true) :
    (specPlaceBet st id addr amount direction m t ref now).result
      = .error .InsufficientFunds ∧
    (specPlaceBet st id addr amount direction m t ref now).state.ledger
      = st.ledger := by
  have hnle : ¬(amount ≤ 0) := not_le.mpr hpos
  constructor <;> simp [specPlaceBet, hnle, hm, ht, debitForBet, h0]

/-- C7.  Under the spec's strict per-address serialization (two simultaneous
calls execute in some sequential order), two `placeBet` calls for the same
address, each requesting the full current balance, yield exactly one success
and one `InsufficientFunds` failure: the first call succeeds and zeroes the
balance, the second is rejected with `InsufficientFunds` and changes
nothing.  Both interleavings are instances of this statement (the two calls
differ only in their bet id and timestamp, over which it quantifies). -/
theorem placeBet_serialized_one_success (st : AdmissionState)
    (addr id1 id2 : String) (direction : Direction) (b m t ref : ℚ)
    (now1 now2 : ℤ) (hbal : b = st.ledger.balances addr) (hb : 0 < b)
    (hm : 1 < m) (ht : targetConsistent direction t = true) :
    (specPlaceBet st id1 addr b direction m t ref now1).result
      = .ok ⟨id1, addr, b, direction, m, t, now1, ref, now1 + roundDuration,
             .Pending⟩ ∧
    (specPlaceBet st id1 addr b direction m t ref now1).state.ledger.balances addr
      = 0 ∧
    (specPlaceBet (specPlaceBet st id1 addr b direction m t ref now1).state id2
        addr b direction m t ref now2).result = .error .InsufficientFunds ∧
    (specPlaceBet (specPlaceBet st id1 addr b direction m t ref now1).state id2
        addr b direction m t ref now2).state.ledger.balances addr = 0 := by
  subst hbal
  have hnle : ¬(st.ledger.balances addr ≤ 0) := not_le.mpr hb
  have hnm' : ¬(m ≤ 1) := not_le.mpr hm
  have hnlt : ¬(st.ledger.balances addr < st.ledger.balances addr) := lt_irrefl _
  have h2 : (specPlaceBet st id1 addr (st.ledger.balances addr) direction m t ref
      now1).state.ledger.balances addr = 0 := by
    simp [specPlaceBet, hnle, hnm', ht, debitForBet, hnlt, applyChange_balances]
  have h1 : (specPlaceBet st id1 addr (st.ledger.balances addr) direction m t ref
      now1).result
      = .ok ⟨id1, addr, st.ledger.balances addr, direction, m, t, now1, ref,
             now1 + roundDuration, .Pending⟩ := by
    simp [specPlaceBet, hnle, hnm', ht, debitForBet, hnlt]
  have hlt2 : (specPlaceBet st id1 addr (st.ledger.balances addr) direction m t
      ref now1).state.ledger.balances addr < st.ledger.balances addr := by
    rw [h2]; exact hb
  have h34 := specPlaceBet_insufficient
    (specPlaceBet st id1 addr (st.ledger.balances addr) direction m t ref
      now1).state id2 addr direction (st.ledger.balances addr) m t ref now2
    hlt2 hb hnm' ht
  exact ⟨h1, h2, h34.1, by rw [h34.2]; exact h2⟩

/-- Witness for C7: an account holding 10, two bets of 10 on UP with target
+5 and multiplier 2: the first succeeds, the second gets
`InsufficientFunds`. -/
theorem placeBet_serialized_one_success_witness :
    (10 : ℚ) = (creditForDeposit emptyLedger "0xa" 10 "0xT1").ledger.balances "0xa" ∧
    ((specPlaceBet ⟨(creditForDeposit emptyLedger "0xa" 10 "0xT1").ledger, []⟩
        "bet-a" "0xa" 10 .UP 2 5 50000 100).result
      = .ok ⟨"bet-a", "0xa", 10, .UP, 2, 5, 100, 50000, 100 + roundDuration,
             .Pending⟩ ∧
    (specPlaceBet ⟨(creditForDeposit emptyLedger "0xa" 10 "0xT1").ledger, []⟩
        "bet-a" "0xa" 10 .UP 2 5 50000 100).state.ledger.balances "0xa" = 0 ∧
    (specPlaceBet (specPlaceBet
        ⟨(creditForDeposit emptyLedger "0xa" 10 "0xT1").ledger, []⟩
        "bet-a" "0xa" 10 .UP 2 5 50000 100).state "bet-b" "0xa" 10 .UP 2 5 50000
        101).result = .error .InsufficientFunds ∧
    (specPlaceBet (specPlaceBet
        ⟨(creditForDeposit emptyLedger "0xa" 10 "0xT1").ledger, []⟩
        "bet-a" "0xa" 10 .UP 2 5 50000 100).state "bet-b" "0xa" 10 .UP 2 5 50000
        101).state.ledger.balances "0xa" = 0) :=
  ⟨by simp [creditForDeposit, emptyLedger, hasTx, applyChange],
   placeBet_serialized_one_success
     ⟨(creditForDeposit emptyLedger "0xa" 10 "0xT1").ledger, []⟩
     "0xa" "bet-a" "bet-b" .UP 10 2 5 50000 100 101
     (by simp [creditForDeposit, emptyLedger, hasTx, applyChange])
     (by norm_num) (by norm_num) (by decide)⟩

/-- C5 counterexample: rejecting an invalid amount is not free of state
effects — on the initial state, a `placeBetFromHouseBalance` call with amount
`0` changes the slice state (its catch block records the error message), so
the call does not leave the state untouched. -/
theorem placeBet_invalid_amount_changes_state :
    (placeBetFromHouseBalance initialGameState (some 0) "1" "0xUSER" none 0
      (.ok ⟨"b", 5⟩)).state ≠ initialGameState := by
  intro h
  have he := congrArg GameState.error h
  rw [show (placeBetFromHouseBalance initialGameState (some 0) "1" "0xUSER" none
      0 (.ok ⟨"b", 5⟩)).state.error = some "Invalid bet amount" from rfl,
    show initialGameState.error = none from rfl] at he
  exact Option.noConfusion he

/-- C5 (amended).  For every state and input with bet amount `≤ 0` or not a
number, `placeBetFromHouseBalance` rejects with the invalid-amount error
before any ledger/API call or bet record: the API is not called, `activeBets`
is unchanged, and the only state effect is the catch block setting
`isPlacingBet := false` and `error` to the failure message. -/
theorem placeBet_invalid_amount_rejected (s : GameState) (amount : Option ℚ)
    (targetId userAddress : String) (cellId : Option String) (now : ℤ)
    (api : Except String ApiOk)
    (hbad : amount = none ∨ ∃ q, amount = some q ∧ q ≤ 0) :
    (placeBetFromHouseBalance s amount targetId userAddress cellId now api).result
      = .error "Invalid bet amount" ∧
    (placeBetFromHouseBalance s amount targetId userAddress cellId now
      api).apiCalled = false ∧
    (placeBetFromHouseBalance s amount targetId userAddress cellId now
      api).state.activeBets = s.activeBets ∧
    (placeBetFromHouseBalance s amount targetId userAddress cellId now api).state
      = { s with isPlacingBet := false, error := some "Invalid bet amount" } := by
  rcases hbad with h | ⟨q, hq, hle⟩
  · subst h
    exact ⟨rfl, rfl, rfl, rfl⟩
  · subst hq
    refine ⟨?_, ?_, ?_, ?_⟩ <;> simp [placeBetFromHouseBalance, hle]

/-- Witness for C5 (amended): concrete rejection of a zero bet amount. -/
theorem placeBet_invalid_amount_rejected_witness :
    ((some (0 : ℚ)) = none ∨ ∃ q, (some (0 : ℚ)) = some q ∧ q ≤ 0) ∧
    ((placeBetFromHouseBalance initialGameState (some 0) "1" "0xUSER" none 0
        (.ok ⟨"b", 5⟩)).result = .error "Invalid bet amount" ∧
      (placeBetFromHouseBalance initialGameState (some 0) "1" "0xUSER" none 0
        (.ok ⟨"b", 5⟩)).apiCalled = false ∧
      (placeBetFromHouseBalance initialGameState (some 0) "1" "0xUSER" none 0
        (.ok ⟨"b", 5⟩)).state.activeBets = initialGameState.activeBets ∧
      (placeBetFromHouseBalance initialGameState (some 0) "1" "0xUSER" none 0
        (.ok ⟨"b", 5⟩)).state
        = { initialGameState with
            isPlacingBet := false, error := some "Invalid bet amount" }) :=
  ⟨Or.inr ⟨0, rfl, le_refl 0⟩,
   placeBet_invalid_amount_rejected initialGameState (some 0) "1" "0xUSER" none 0
     (.ok ⟨"b", 5⟩) (Or.inr ⟨0, rfl, le_refl 0⟩)⟩

/-- C6 counterexample: `placeBetFromHouseBalance` does not reject a multiplier
`≤ 1.0` with `InvalidTarget`: on the initial state, the dynamic target id
`UP-1` (multiplier `1 ≤ 1.0`) is accepted — the call succeeds with no
`InvalidTarget` error, the bet is created and the API is never consulted for
validation. -/
theorem placeBet_low_multiplier_accepted :
    (placeBetFromHouseBalance initialGameState (some 2) "UP-1" "0xDEMO1" none 0
        (.error "api down")).result
      = .ok ⟨"demo-0", 1000 - 2, ⟨"demo-0", "UP-1", 2, 1, .UP, 0⟩⟩ ∧
    (placeBetFromHouseBalance initialGameState (some 2) "UP-1" "0xDEMO1" none 0
        (.error "api down")).state.activeBets
      = [⟨"demo-0", "UP-1", 2, 1, .UP, 0⟩] ∧
    ((1 : ℚ) ≤ 1) :=
  ⟨rfl, rfl, le_refl 1⟩

/-- C6 (amended).  `placeBetFromHouseBalance` performs no multiplier or
direction/target-consistency validation.  What it does guarantee: a dynamic
target id always yields a direction-consistent target (price change `+10` for
UP, `-10` for DOWN), and the only target rejection is the
`"Invalid target cell"` error for a target id that is neither dynamic nor a
known predefined cell — that rejection creates no bet and performs no API
call. -/
theorem placeBet_target_validation (s : GameState) (q : ℚ)
    (targetId userAddress : String) (cellId : Option String) (now : ℤ)
    (api : Except String ApiOk) (hq : 0 < q)
    (hnotfound : resolveTarget s.targetCells targetId = none) :
    (placeBetFromHouseBalance s (some q) targetId userAddress cellId now
        api).result = .error "Invalid target cell" ∧
    (placeBetFromHouseBalance s (some q) targetId userAddress cellId now
        api).state.activeBets = s.activeBets ∧
    (placeBetFromHouseBalance s (some q) targetId userAddress cellId now
        api).apiCalled = false ∧
    (∀ tid : String, strStartsWith tid "UP-" = true →
      (dynamicTarget tid).direction = .UP ∧ (dynamicTarget tid).priceChange = 10) ∧
    (∀ tid : String, strStartsWith tid "UP-" = false →
      (dynamicTarget tid).direction = .DOWN ∧
      (dynamicTarget tid).priceChange = -10) := by
  have hnle : ¬(q ≤ 0) := not_le.mpr hq
  refine ⟨?_, ?_, ?_, ?_, ?_⟩
  · simp [placeBetFromHouseBalance, hnle, hnotfound]
  · simp [placeBetFromHouseBalance, hnle, hnotfound]
  · simp [placeBetFromHouseBalance, hnle, hnotfound]
  · intro tid h
    simp [dynamicTarget, h]
  · intro tid h
    simp [dynamicTarget, h]

/-- Witness for C6 (amended): target id `"9"` matches no predefined cell of
the initial state and is not dynamic, so a bet of 1 on it is rejected with
no bet and no API call. -/
theorem placeBet_target_validation_witness :
    (0 : ℚ) < 1 ∧
    resolveTarget initialGameState.targetCells "9" = none ∧
    ((placeBetFromHouseBalance initialGameState (some 1) "9" "0xUSER" none 0
        (.ok ⟨"b", 5⟩)).result = .error "Invalid target cell" ∧
      (placeBetFromHouseBalance initialGameState (some 1) "9" "0xUSER" none 0
        (.ok ⟨"b", 5⟩)).state.activeBets = initialGameState.activeBets ∧
      (placeBetFromHouseBalance initialGameState (some 1) "9" "0xUSER" none 0
        (.ok ⟨"b", 5⟩)).apiCalled = false ∧
      (∀ tid : String, strStartsWith tid "UP-" = true →
        (dynamicTarget tid).direction = .UP ∧
        (dynamicTarget tid).priceChange = 10) ∧
      (∀ tid : String, strStartsWith tid "UP-" = false →
        (dynamicTarget tid).direction = .DOWN ∧
        (dynamicTarget tid).priceChange = -10)) :=
  ⟨by norm_num, by decide,
   placeBet_target_validation initialGameState 1 "9" "0xUSER" none 0
     (.ok ⟨"b", 5⟩) (by norm_num) (by decide)⟩

/-- C8 counterexample: switching the selected asset silently drops active
bets — a state holding one active bet loses it when `setSelectedAsset`
switches from BTC to SUI. -/
theorem setSelectedAsset_drops_active_bets :
    (setSelectedAsset .SUI
        { initialGameState with
          activeBets := [⟨"bet-7", "1", 1, 1.5, .UP, 0⟩] }).activeBets = [] ∧
    ({ initialGameState with
        activeBets := [⟨"bet-7", "1", 1, 1.5, .UP, 0⟩] } :
      GameState).activeBets ≠ [] := by
  constructor
  · decide
  · decide

/-- C8 (amended).  Active bets are preserved by every game-slice operation
except two: `resolveBet`, which removes exactly the resolved bet (and only
ever removes bets), and `setSelectedAsset` with a *different* asset, which
clears all active bets; `setSelectedAsset` with the current asset is the
identity. -/
theorem active_bets_transitions (s : GameState) (a a2 : Asset) (b : ActiveBet)
    (betId : String) (won : Bool) (payout : ℚ) (round : Option String)
    (now : ℤ) (p : ℚ) (hsame : s.selectedAsset = a)
    (hdiff : s.selectedAsset ≠ a2) :
    setSelectedAsset a s = s ∧
    (setSelectedAsset a2 s).activeBets = [] ∧
    (addActiveBet b s).activeBets = s.activeBets ++ [b] ∧
    (∀ bb ∈ s.activeBets,
      bb ∈ (resolveBet betId won payout s).activeBets ∨ bb.id = betId) ∧
    (∀ bb ∈ (resolveBet betId won payout s).activeBets, bb ∈ s.activeBets) ∧
    (updatePrice now p s).activeBets = s.activeBets ∧
    (settleRound betId s).activeBets = s.activeBets ∧
    (setActiveRound round s).activeBets = s.activeBets ∧
    (loadTargetCells s).activeBets = s.activeBets ∧
    (clearError s).activeBets = s.activeBets := by
  refine ⟨?_, ?_, rfl, ?_, ?_, rfl, rfl, rfl, rfl, rfl⟩
  · simp [setSelectedAsset, hsame]
  · simp [setSelectedAsset, hdiff]
  · intro bb hbb
    by_cases hid : bb.id = betId
    · exact Or.inr hid
    · exact Or.inl (by simp [resolveBet, List.mem_filter, hbb, hid])
  · intro bb hbb
    exact (List.mem_filter.mp hbb).1

/-- Witness for C8 (amended): the initial state (asset BTC), reselecting BTC
versus switching to SUI. -/
theorem active_bets_transitions_witness :
    initialGameState.selectedAsset = .BTC ∧
    initialGameState.selectedAsset ≠ .SUI ∧
    (setSelectedAsset .BTC initialGameState = initialGameState ∧
      (setSelectedAsset .SUI initialGameState).activeBets = [] ∧
      (addActiveBet ⟨"bet-7", "1", 1, 1.5, .UP, 0⟩ initialGameState).activeBets
        = initialGameState.activeBets ++ [⟨"bet-7", "1", 1, 1.5, .UP, 0⟩] ∧
      (∀ bb ∈ initialGameState.activeBets,
        bb ∈ (resolveBet "bet-7" true 2 initialGameState).activeBets ∨
          bb.id = "bet-7") ∧
      (∀ bb ∈ (resolveBet "bet-7" true 2 initialGameState).activeBets,
        bb ∈ initialGameState.activeBets) ∧
      (updatePrice 1000 5 initialGameState).activeBets
        = initialGameState.activeBets ∧
      (settleRound "bet-7" initialGameState).activeBets
        = initialGameState.activeBets ∧
      (setActiveRound (some "r") initialGameState).activeBets
        = initialGameState.activeBets ∧
      (loadTargetCells initialGameState).activeBets
        = initialGameState.activeBets ∧
      (clearError initialGameState).activeBets
        = initialGameState.activeBets) :=
  ⟨rfl, by decide,
   active_bets_transitions initialGameState .BTC .SUI ⟨"bet-7", "1", 1, 1.5, .UP, 0⟩
     "bet-7" true 2 (some "r") 1000 5 rfl (by decide)⟩

/-- C9.  For every user address whose formatted form starts with `0xDEMO` and
every valid amount and resolvable target, `placeBetFromHouseBalance` bypasses
the ledger entirely: no API call is made, the result is independent of the
API, the bet is appended to the active bets locally, and the returned bet id
is the fabricated `demo-<now>` with `remainingBalance = 1000 - betAmount`
regardless of the user's actual house balance. -/
theorem demo_mode_bypasses_ledger (s : GameState) (q : ℚ)
    (targetId userAddress : String) (cellId : Option String) (now : ℤ)
    (api api2 : Except String ApiOk) (target : TargetCell)
    (hdemo : strStartsWith (formatAddress userAddress) "0xDEMO" = true)
    (hq : 0 < q)
    (htarget : resolveTarget s.targetCells targetId = some target) :
    (placeBetFromHouseBalance s (some q) targetId userAddress cellId now
        api).apiCalled = false ∧
    (placeBetFromHouseBalance s (some q) targetId userAddress cellId now
        api).result
      = .ok ⟨"demo-" ++ toString now, 1000 - q,
          ⟨"demo-" ++ toString now, cellId.getD targetId, q, target.multiplier,
           target.direction, now⟩⟩ ∧
    (placeBetFromHouseBalance s (some q) targetId userAddress cellId now
        api).state.activeBets
      = s.activeBets ++ [⟨"demo-" ++ toString now, cellId.getD targetId, q,
          target.multiplier, target.direction, now⟩] ∧
    placeBetFromHouseBalance s (some q) targetId userAddress cellId now api
      = placeBetFromHouseBalance s (some q) targetId userAddress cellId now
          api2 := by
  have hnle : ¬(q ≤ 0) := not_le.mpr hq
  refine ⟨?_, ?_, ?_, ?_⟩ <;>
    simp [placeBetFromHouseBalance, hnle, htarget, hdemo]

/-- Witness for C9: address `DEMO1` (formatted `0xDEMO1`), a 2-unit bet on the
predefined target cell `3` at time 5: the API (here an error response, and an
unrelated success response) is never consulted. -/
theorem demo_mode_bypasses_ledger_witness :
    strStartsWith (formatAddress "DEMO1") "0xDEMO" = true ∧
    (0 : ℚ) < 2 ∧
    resolveTarget initialGameState.targetCells "3"
      = some ⟨"3", "+$20 in 30s", 3.0, 20, .UP⟩ ∧
    ((placeBetFromHouseBalance initialGameState (some 2) "3" "DEMO1" none 5
        (.error "down")).apiCalled = false ∧
      (placeBetFromHouseBalance initialGameState (some 2) "3" "DEMO1" none 5
        (.error "down")).result
        = .ok ⟨"demo-" ++ toString (5 : ℤ), 1000 - 2,
            ⟨"demo-" ++ toString (5 : ℤ), (none : Option String).getD "3", 2,
             (⟨"3", "+$20 in 30s", 3.0, 20, .UP⟩ : TargetCell).multiplier,
             (⟨"3", "+$20 in 30s", 3.0, 20, .UP⟩ : TargetCell).direction, 5⟩⟩ ∧
      (placeBetFromHouseBalance initialGameState (some 2) "3" "DEMO1" none 5
        (.error "down")).state.activeBets
        = initialGameState.activeBets ++
            [⟨"demo-" ++ toString (5 : ℤ), (none : Option String).getD "3", 2,
              (⟨"3", "+$20 in 30s", 3.0, 20, .UP⟩ : TargetCell).multiplier,
              (⟨"3", "+$20 in 30s", 3.0, 20, .UP⟩ : TargetCell).direction, 5⟩] ∧
      placeBetFromHouseBalance initialGameState (some 2) "3" "DEMO1" none 5
          (.error "down")
        = placeBetFromHouseBalance initialGameState (some 2) "3" "DEMO1"
            none 5 (.ok ⟨"x", 0⟩)) :=
  ⟨by decide, by norm_num, rfl,
   demo_mode_bypasses_ledger initialGameState 2 "3" "DEMO1" none 5
     (.error "down") (.ok ⟨"x", 0⟩) ⟨"3", "+$20 in 30s", 3.0, 20, .UP⟩
     (by decide) (by norm_num) rfl⟩

/-- Dropping fewer elements than the length preserves the last element. -/
theorem getLast?_drop_of_lt {α : Type} :
    ∀ (l : List α) (k : ℕ), k < l.length → (l.drop k).getLast? = l.getLast? := by
  intro l
  induction l with
  | nil => intro k hk; simp at hk
  | cons a l2 ih =>
    intro k hk
    cases k with
    | zero => rfl
    | succ m =>
      have hm : m < l2.length := by simpa using hk
      have hne : l2 ≠ [] := by
        intro hnil; rw [hnil] at hm; simp at hm
      rw [List.drop_succ_cons, ih m hm]
      cases l2 with
      | nil => exact absurd rfl hne
      | cons b l3 => rw [List.getLast?_cons_cons]

/-- One `updatePrice` call, assuming the clock has not run backwards relative
to the retained history: the current price becomes the new price, the history
holds at most `MAX_PRICE_HISTORY` points, every retained point lies in the
five-minute window ending at the call time, and the new point is last. -/
theorem updatePrice_step (s : GameState) (now : ℤ) (p : ℚ)
    (h : ∀ q ∈ s.priceHistory, q.timestamp ≤ now) :
    (updatePrice now p s).currentPrice = p ∧
    (updatePrice now p s).priceHistory.length ≤ MAX_PRICE_HISTORY ∧
    (∀ q ∈ (updatePrice now p s).priceHistory,
      now - 5 * 60 * 1000 ≤ q.timestamp ∧ q.timestamp ≤ now) ∧
    (updatePrice now p s).priceHistory.getLast? = some ⟨now, p⟩ := by
  have hpred :
      (fun point : PricePoint => decide (now - 5 * 60 * 1000 ≤ point.timestamp))
          (PricePoint.mk now p) = true := by
    simp only [decide_eq_true_eq]
    linarith
  have hfilter :
      (s.priceHistory ++ [(⟨now, p⟩ : PricePoint)]).filter
          (fun point : PricePoint => decide (now - 5 * 60 * 1000 ≤ point.timestamp))
        = s.priceHistory.filter
            (fun point : PricePoint => decide (now - 5 * 60 * 1000 ≤ point.timestamp))
            ++ [⟨now, p⟩] := by
    rw [List.filter_append]
    congr 1
    simp [hpred]
  have hhist :
      (updatePrice now p s).priceHistory
        = (s.priceHistory.filter
            (fun point : PricePoint => decide (now - 5 * 60 * 1000 ≤ point.timestamp))
            ++ [(⟨now, p⟩ : PricePoint)]).drop
          ((s.priceHistory.filter
            (fun point : PricePoint => decide (now - 5 * 60 * 1000 ≤ point.timestamp))
            ++ [(⟨now, p⟩ : PricePoint)]).length - MAX_PRICE_HISTORY) := by
    simp only [updatePrice]
    rw [hfilter]
  have hlen1 :
      1 ≤ (s.priceHistory.filter
          (fun point : PricePoint => decide (now - 5 * 60 * 1000 ≤ point.timestamp))
          ++ [(⟨now, p⟩ : PricePoint)]).length := by
    simp
  have hklt :
      (s.priceHistory.filter
          (fun point : PricePoint => decide (now - 5 * 60 * 1000 ≤ point.timestamp))
          ++ [(⟨now, p⟩ : PricePoint)]).length - MAX_PRICE_HISTORY
        < (s.priceHistory.filter
            (fun point : PricePoint => decide (now - 5 * 60 * 1000 ≤ point.timestamp))
            ++ [(⟨now, p⟩ : PricePoint)]).length := by
    simp only [MAX_PRICE_HISTORY]
    omega
  refine ⟨rfl, ?_, ?_, ?_⟩
  · rw [hhist, List.length_drop]
    simp only [MAX_PRICE_HISTORY]
    omega
  · intro q hq
    rw [hhist] at hq
    have hqF := List.drop_subset _ _ hq
    rcases List.mem_append.mp hqF with hmemf | hnew
    · obtain ⟨hmem, hpredq⟩ := List.mem_filter.mp hmemf
      refine ⟨by simpa using hpredq, h q hmem⟩
    · have hq' : q = ⟨now, p⟩ := by simpa using hnew
      subst hq'
      constructor <;> [linarith; exact le_refl now]
  · rw [hhist, getLast?_drop_of_lt _ _ hklt]
    exact List.getLast?_concat _

/-- C10.  After every call of every sequence of `updatePrice` calls made with
a monotone clock (and starting from a history no newer than the calls, e.g.
the empty initial history), the state satisfies: `currentPrice` equals the
price just passed, the price history holds at most `MAX_PRICE_HISTORY = 300`
points, every retained point's timestamp lies within the five-minute window
ending at the call time, and the newly appended point is the last element. -/
theorem updatePrice_window_invariant :
    ∀ (calls : List (ℤ × ℚ)) (s : GameState),
      List.Pairwise (fun c1 c2 => c1.1 ≤ c2.1) calls →
      (∀ q ∈ s.priceHistory, ∀ c ∈ calls, q.timestamp ≤ c.1) →
      ∀ n, n < calls.length →
        ((runUpdates s (calls.take (n + 1))).currentPrice
            = (calls.getD n (0, 0)).2 ∧
          (runUpdates s (calls.take (n + 1))).priceHistory.length
            ≤ MAX_PRICE_HISTORY ∧
          (∀ q ∈ (runUpdates s (calls.take (n + 1))).priceHistory,
            (calls.getD n (0, 0)).1 - 5 * 60 * 1000 ≤ q.timestamp ∧
            q.timestamp ≤ (calls.getD n (0, 0)).1) ∧
          (runUpdates s (calls.take (n + 1))).priceHistory.getLast?
            = some ⟨(calls.getD n (0, 0)).1, (calls.getD n (0, 0)).2⟩) := by
  intro calls
  induction calls with
  | nil => intro s _ _ n hn; simp at hn
  | cons c rest ih =>
    intro s hmono hinit n hn
    have hstep := updatePrice_step s c.1 c.2
      (fun q hq => hinit q hq c (List.mem_cons_self c rest))
    cases n with
    | zero =>
      simpa [runUpdates] using hstep
    | succ m =>
      have hm : m < rest.length := by simpa using hn
      have hpw := List.pairwise_cons.mp hmono
      have hinit2 : ∀ q ∈ (updatePrice c.1 c.2 s).priceHistory,
          ∀ c2 ∈ rest, q.timestamp ≤ c2.1 := by
        intro q hq c2 hc2
        exact le_trans ((hstep.2.2.1 q hq).2) (hpw.1 c2 hc2)
      have hrest := ih (updatePrice c.1 c.2 s) hpw.2 hinit2 m hm
      simpa [runUpdates, List.take_succ_cons] using hrest

/-- Witness for C10: two calls at times 1000 and 2000 on the initial state;
after the second call the state satisfies all four conjuncts at time 2000 and
price 6. -/
theorem updatePrice_window_invariant_witness :
    List.Pairwise (fun c1 c2 => c1.1 ≤ c2.1) [((1000 : ℤ), (5 : ℚ)), (2000, 6)] ∧
    (∀ q ∈ initialGameState.priceHistory,
      ∀ c ∈ [((1000 : ℤ), (5 : ℚ)), (2000, 6)], q.timestamp ≤ c.1) ∧
    ((runUpdates initialGameState
        ([((1000 : ℤ), (5 : ℚ)), (2000, 6)].take (1 + 1))).currentPrice
        = ([((1000 : ℤ), (5 : ℚ)), (2000, 6)].getD 1 (0, 0)).2 ∧
      (runUpdates initialGameState
        ([((1000 : ℤ), (5 : ℚ)), (2000, 6)].take (1 + 1))).priceHistory.length
        ≤ MAX_PRICE_HISTORY ∧
      (∀ q ∈ (runUpdates initialGameState
          ([((1000 : ℤ), (5 : ℚ)), (2000, 6)].take (1 + 1))).priceHistory,
        ([((1000 : ℤ), (5 : ℚ)), (2000, 6)].getD 1 (0, 0)).1 - 5 * 60 * 1000
            ≤ q.timestamp ∧
        q.timestamp ≤ ([((1000 : ℤ), (5 : ℚ)), (2000, 6)].getD 1 (0, 0)).1) ∧
      (runUpdates initialGameState
        ([((1000 : ℤ), (5 : ℚ)), (2000, 6)].take (1 + 1))).priceHistory.getLast?
        = some ⟨([((1000 : ℤ), (5 : ℚ)), (2000, 6)].getD 1 (0, 0)).1,
                ([((1000 : ℤ), (5 : ℚ)), (2000, 6)].getD 1 (0, 0)).2⟩) :=
  ⟨by decide, by simp [initialGameState],
   updatePrice_window_invariant [((1000 : ℤ), (5 : ℚ)), (2000, 6)]
     initialGameState (by decide) (by simp [initialGameState]) 1 (by decide)⟩

end Overflow
